import Mathlib

/-!
Verification of the nassh-relay session layer.

Shallow embedding of src/nassh-relay.js: buffers are lists of byte values,
the Session object is an explicit state record, and the side effects of the
event handlers (WebSocket sends, WebSocket closes, backend TCP writes) are
collected in effect lists.  A handler that would throw an uncaught JS
exception is modelled by Option (returning none) or by a dedicated result
constructor where the effects emitted before the throw matter.
-/

namespace NasshRelay

/-- A node.js Buffer: a list of byte values. -/
abbrev Buf := List Nat

/-- Buffer.prototype.bslice (src lines 132-139).  Throws (none) when
index > length or index < 0; returns the empty buffer when index = 0
(the corrected splice(-0) corner case); otherwise slice(-index), i.e.
the last index bytes. -/
def bslice (b : Buf) (index : Int) : Option Buf :=
  if (b.length : Int) < index ∨ index < 0 then none
  else if index = 0 then some []
  else some (b.drop (b.length - index.toNat))

/-- Buffer.writeInt32BE at offset 0: the 4-byte big-endian two's-complement
encoding of an in-range signed 32-bit value. -/
def writeInt32BE (v : Int) : Buf :=
  [(v % 4294967296).toNat / 16777216 % 256,
   (v % 4294967296).toNat / 65536 % 256,
   (v % 4294967296).toNat / 256 % 256,
   (v % 4294967296).toNat % 256]

/-- Buffer.readInt32BE at offset 0: decode the first four bytes as a signed
big-endian 32-bit integer; throws (none) when fewer than 4 bytes exist. -/
def readInt32BE (b : Buf) : Option Int :=
  match b with
  | b0 :: b1 :: b2 :: b3 :: _ =>
    some (if (b0 % 256) * 16777216 + (b1 % 256) * 65536 + (b2 % 256) * 256 + b3 % 256
            < 2147483648
          then ((b0 % 256) * 16777216 + (b1 % 256) * 65536 + (b2 % 256) * 256 + b3 % 256 : Int)
          else ((b0 % 256) * 16777216 + (b1 % 256) * 65536 + (b2 % 256) * 256 + b3 % 256 : Int)
               - 4294967296)
  | _ => none

/-- var friendlyBufferRelease = 256*256*16 (src line 141). -/
def friendlyBufferRelease : Int := 256 * 256 * 16

/-- A frontend WebSocket connection: an identity (JS object identity) plus
the session-layer pos attribute set at adoption and advanced per frame. -/
structure FrontendCon where
  id : Nat
  pos : Int
  deriving DecidableEq

/-- The mutable state of a Session object: backendSocket.bytesWritten,
backendSocket.bytesRead, the retransmission buffer B2FUnacked, and the
currently adopted frontend connection (null when detached). -/
structure SessionState where
  bytesWritten : Int
  bytesRead : Int
  B2FUnacked : Buf
  frontendCon : Option FrontendCon
  deriving DecidableEq

/-- Observable side effects of the session-layer handlers. -/
inductive Effect where
  | sendBytes (connId : Nat) (bytes : Buf)
  | wsClose (connId : Nat)
  | backendWrite (bytes : Buf)
  deriving DecidableEq

/-- frontendCon.closeProtocol (src lines 373-378): send a frame holding only
a big-endian -1 ack header (empty payload), then close the WebSocket. -/
def closeProtocolEffects (connId : Nat) : List Effect :=
  [Effect.sendBytes connId (writeInt32BE (-1)), Effect.wsClose connId]

/-- The closeProtocol call on the previously adopted frontend, if any
(src lines 225-227, 168-170). -/
def evictEffects (s : SessionState) : List Effect :=
  match s.frontendCon with
  | some old => closeProtocolEffects old.id
  | none => []

/-- Session.prototype.sendFragment (src lines 187-199): when a frontend is
adopted, send one frame whose 4-byte header encodes
min(backendSocket.bytesWritten, frontendCon.pos) followed by the fragment. -/
def sendFragment (s : SessionState) (fragment : Buf) : List Effect :=
  match s.frontendCon with
  | none => []
  | some fc =>
    [Effect.sendBytes fc.id (writeInt32BE (min s.bytesWritten fc.pos) ++ fragment)]

/-- Session.prototype.shrinkBuffer (src lines 202-218).  Returns none when the
ack is ahead of bytesRead or behind the buffer (the function returns false);
otherwise B2FUnacked := B2FUnacked.bslice(bytesRead - ack). -/
def shrinkBuffer (s : SessionState) (ack : Int) : Option SessionState :=
  if s.bytesRead < ack then none
  else if ack < s.bytesRead - (s.B2FUnacked.length : Int) then none
  else
    match bslice s.B2FUnacked (s.bytesRead - ack) with
    | none => none
    | some b => some { s with B2FUnacked := b }

/-- The close listener registered in adopt (src lines 228-233): clear
ses.frontendCon only when the closing connection is still the adopted one. -/
def closeHandler (s : SessionState) (connId : Nat) : SessionState :=
  match s.frontendCon with
  | some cur => if cur.id = connId then { s with frontendCon := none } else s
  | none => s

/-- The message listener for a binary frame (src lines 244-269), run for the
currently adopted frontend connection (the source comment at lines 235-239
notes a message can only come from the adopted connection).  Steps:
pos += length - 4; unseenPayload := binaryData.bslice(max(pos - bytesWritten, 0));
backendSocket.write(unseenPayload); shrinkBuffer(readInt32BE(0)) and on failure
emit the close event and return; finally the friendly-release empty fragment
when bytesWritten - pos > friendlyBufferRelease.  none models an uncaught
exception from bslice or readInt32BE. -/
def onBinaryMessage (s : SessionState) (frame : Buf) :
    Option (SessionState × List Effect) :=
  match s.frontendCon with
  | none => none
  | some fc =>
    let pos' : Int := fc.pos + ((frame.length : Int) - 4)
    let fc' : FrontendCon := { fc with pos := pos' }
    let s1 : SessionState := { s with frontendCon := some fc' }
    match bslice frame (max (pos' - s1.bytesWritten) 0) with
    | none => none
    | some unseenPayload =>
      let s2 : SessionState :=
        { s1 with bytesWritten := s1.bytesWritten + (unseenPayload.length : Int) }
      match readInt32BE frame with
      | none => none
      | some ack =>
        match shrinkBuffer s2 ack with
        | none =>
          some (closeHandler s2 fc'.id, [Effect.backendWrite unseenPayload])
        | some s3 =>
          if friendlyBufferRelease < s3.bytesWritten - fc'.pos then
            some (s3, Effect.backendWrite unseenPayload :: sendFragment s3 [])
          else
            some (s3, [Effect.backendWrite unseenPayload])

/-- Result of Session.prototype.adopt: normal return, or an uncaught
ReferenceError (the statement frontend.closeProtocol() at src line 276
reads an undefined variable frontend), with the effects emitted so far. -/
inductive AdoptResult where
  | ok (state : SessionState) (effects : List Effect)
  | refError (state : SessionState) (effects : List Effect)
  deriving DecidableEq

/-- Session.prototype.adopt (src lines 221-298): closeProtocol any prior
frontend; if pos > bytesWritten, evaluate frontend.closeProtocol() — a
ReferenceError, since only frontendCon is in scope; else set
frontendCon.pos := pos, shrinkBuffer(ack) and on failure closeProtocol the
new connection without attaching; else install the new connection and
sendFragment(B2FUnacked). -/
def adopt (s : SessionState) (fc : FrontendCon) (ack : Int) (pos : Int) :
    AdoptResult :=
  let eff0 := evictEffects s
  if s.bytesWritten < pos then
    .refError s eff0
  else
    let fc' : FrontendCon := { fc with pos := pos }
    match shrinkBuffer s ack with
    | none => .ok s (eff0 ++ closeProtocolEffects fc'.id)
    | some s' =>
      let s2 : SessionState := { s' with frontendCon := some fc' }
      .ok s2 (eff0 ++ sendFragment s2 s2.B2FUnacked)

/-- A registry slot for a session id.  JS distinguishes an id that was never
inserted (undefined) from one assigned null by the backend close handler
(src line 167: sessions[ses.sid] = null). -/
inductive RegEntry where
  | absent
  | nullEntry
  | live (ses : SessionState)
  deriving DecidableEq

/-- The backend socket close listener (src lines 165-171): assign null to the
registry slot and closeProtocol the adopted frontend, if any. -/
def backendCloseHandler (reg : Nat → RegEntry) (sid : Nat) (s : SessionState) :
    (Nat → RegEntry) × List Effect :=
  (fun x => if x = sid then RegEntry.nullEntry else reg x, evictEffects s)

/-- A WebSocket upgrade request on the relay: the resource path and the
sid/ack/pos query parameters (sid may be missing). -/
structure WsRequest where
  pathname : String
  sid : Option Nat
  ack : Int
  pos : Int
  deriving DecidableEq

/-- Control-flow outcome of the wsServer request listener. -/
structure WsHandlerResult where
  accepted : Bool
  protoClosed : Bool
  adoptCalled : Bool
  typeError : Bool
  deriving DecidableEq

/-- The wsServer request listener (src lines 364-402).  The upgrade is always
accepted.  A wrong path calls closeProtocol but does not return (src lines
380-383 have no return statement); a missing sid or an undefined registry
slot calls closeProtocol and returns; otherwise control reaches
ses.adopt(...), which throws a TypeError when the slot holds null. -/
def wsRequestHandler (reg : Nat → RegEntry) (req : WsRequest) : WsHandlerResult :=
  let wrongPath : Bool := req.pathname != "/connect"
  match req.sid with
  | none =>
    { accepted := true, protoClosed := true, adoptCalled := false, typeError := false }
  | some sid =>
    match reg sid with
    | RegEntry.absent =>
      { accepted := true, protoClosed := true, adoptCalled := false, typeError := false }
    | RegEntry.nullEntry =>
      { accepted := true, protoClosed := wrongPath, adoptCalled := true, typeError := true }
    | RegEntry.live _ =>
      { accepted := true, protoClosed := wrongPath, adoptCalled := true, typeError := false }

/-! ### Helper lemmas -/

theorem bslice_eq_drop (b : Buf) (i : Int) (h0 : 0 ≤ i) (h1 : i ≤ (b.length : Int)) :
    bslice b i = some (b.drop (b.length - i.toNat)) := by
  unfold bslice
  rw [if_neg (by omega)]
  by_cases hz : i = 0
  · subst hz
    simp [List.drop_length]
  · rw [if_neg hz]

theorem readInt32BE_writeInt32BE_append (v : Int) (rest : Buf)
    (h1 : -2147483648 ≤ v) (h2 : v < 2147483648) :
    readInt32BE (writeInt32BE v ++ rest) = some v := by
  have hnn : 0 ≤ v % 4294967296 := Int.emod_nonneg v (by norm_num)
  have hlt : v % 4294967296 < 4294967296 := Int.emod_lt_of_pos v (by norm_num)
  have hv : ((v % 4294967296).toNat : Int) = v % 4294967296 := Int.toNat_of_nonneg hnn
  simp only [writeInt32BE, readInt32BE, List.cons_append, Option.some.injEq]
  split <;> omega

theorem readInt32BE_isSome (b : Buf) (h : 4 ≤ b.length) :
    ∃ a, readInt32BE b = some a := by
  obtain _ | ⟨b0, _ | ⟨b1, _ | ⟨b2, _ | ⟨b3, rest⟩⟩⟩⟩ := b <;>
    simp only [List.length_nil, List.length_cons] at h
  · omega
  · omega
  · omega
  · omega
  · exact ⟨_, rfl⟩

theorem shrinkBuffer_ok (s : SessionState) (a : Int)
    (h1 : a ≤ s.bytesRead) (h2 : s.bytesRead - (s.B2FUnacked.length : Int) ≤ a) :
    shrinkBuffer s a =
      some { s with B2FUnacked :=
        s.B2FUnacked.drop (s.B2FUnacked.length - (s.bytesRead - a).toNat) } := by
  unfold shrinkBuffer
  rw [if_neg (by omega), if_neg (by omega),
      bslice_eq_drop s.B2FUnacked (s.bytesRead - a) (by omega) (by omega)]

theorem shrinkBuffer_fail (s : SessionState) (a : Int)
    (h : s.bytesRead < a ∨ a < s.bytesRead - (s.B2FUnacked.length : Int)) :
    shrinkBuffer s a = none := by
  unfold shrinkBuffer
  rcases h with h | h
  · rw [if_pos h]
  · rw [if_neg (by omega), if_pos h]

theorem shrinkBuffer_fields (s : SessionState) (a : Int) (s' : SessionState)
    (h : shrinkBuffer s a = some s') :
    s'.bytesWritten = s.bytesWritten ∧ s'.bytesRead = s.bytesRead ∧
      s'.frontendCon = s.frontendCon := by
  unfold shrinkBuffer at h
  split at h
  · exact absurd h (by simp)
  · split at h
    · exact absurd h (by simp)
    · split at h
      · exact absurd h (by simp)
      · obtain rfl := Option.some.inj h
        exact ⟨rfl, rfl, rfl⟩

/-- Characterization of the binary-message listener for a frame of length at
least 4 arriving on the adopted connection: the pos advance, the unseen-suffix
write of the last n bytes (n the clamped overlap), and then either the
detach-on-shrink-failure path or the friendly-release decision. -/
theorem onBinaryMessage_eq (s : SessionState) (fc : FrontendCon) (frame : Buf)
    (ack : Int) (n : Nat)
    (hfc : s.frontendCon = some fc) (hlen : 4 ≤ frame.length)
    (hpos : fc.pos ≤ s.bytesWritten)
    (hack : readInt32BE frame = some ack)
    (hn : (n : Int) = max ((fc.pos + ((frame.length : Int) - 4)) - s.bytesWritten) 0) :
    onBinaryMessage s frame =
      (let pos' : Int := fc.pos + ((frame.length : Int) - 4)
       let u : Buf := frame.drop (frame.length - n)
       let s2 : SessionState :=
         { s with frontendCon := some { fc with pos := pos' },
                  bytesWritten := s.bytesWritten + (n : Int) }
       match shrinkBuffer s2 ack with
       | none => some ({ s2 with frontendCon := none }, [Effect.backendWrite u])
       | some s3 =>
         if friendlyBufferRelease < s3.bytesWritten - pos' then
           some (s3, [Effect.backendWrite u,
                      Effect.sendBytes fc.id (writeInt32BE (min s3.bytesWritten pos') ++ [])])
         else some (s3, [Effect.backendWrite u])) := by
  have hL4 : (4 : Int) ≤ (frame.length : Int) := by exact_mod_cast hlen
  have hmax : max ((fc.pos + ((frame.length : Int) - 4)) - s.bytesWritten) 0
      ≤ (frame.length : Int) := max_le (by omega) (by omega)
  have hnle : (n : Int) ≤ (frame.length : Int) := hn ▸ hmax
  have hnle' : n ≤ frame.length := by exact_mod_cast hnle
  have hulen : ((frame.drop (frame.length - n)).length : Int) = (n : Int) := by
    rw [List.length_drop]
    omega
  simp only [onBinaryMessage, hfc]
  rw [← hn, bslice_eq_drop frame (n : Int) (by omega) hnle]
  simp only [Int.toNat_natCast, hack, hulen]
  cases hsh : shrinkBuffer
      { s with frontendCon := some { fc with pos := fc.pos + ((frame.length : Int) - 4) },
               bytesWritten := s.bytesWritten + (n : Int) } ack with
  | none =>
      simp [closeHandler, hsh]
  | some s3 =>
      obtain ⟨hbw, hbr, hfc3⟩ := shrinkBuffer_fields _ _ _ hsh
      simp [hsh, sendFragment, hfc3]

/-! ### Claims -/

/-- C1: for every binary frame of length ≥ 4 received from the adopted
frontend with pos ≤ bytesWritten beforehand, the handler first advances the
frontend pos by the payload length, then writes to the backend exactly the
last max(pos - bytesWritten, 0) bytes of the payload, and bytesWritten
advances by exactly that unseen-suffix length. -/
theorem C1_inbound_overlap (s : SessionState) (fc : FrontendCon) (frame : Buf)
    (hfc : s.frontendCon = some fc) (hlen : 4 ≤ frame.length)
    (hpos : fc.pos ≤ s.bytesWritten) :
    ∃ s' effs, onBinaryMessage s frame = some (s', effs) ∧
      effs.take 1 = [Effect.backendWrite ((frame.drop 4).drop ((frame.drop 4).length -
        (fc.pos + ((frame.drop 4).length : Int) - s.bytesWritten).toNat))] ∧
      s'.bytesWritten = s.bytesWritten +
        ((fc.pos + ((frame.drop 4).length : Int) - s.bytesWritten).toNat : Int) ∧
      (∀ fc', s'.frontendCon = some fc' →
        fc'.pos = fc.pos + ((frame.drop 4).length : Int)) := by
  obtain ⟨ack, hack⟩ := readInt32BE_isSome frame hlen
  have hplen : ((frame.drop 4).length : Int) = (frame.length : Int) - 4 := by
    rw [List.length_drop]
    omega
  rw [hplen]
  have hnmax : (((fc.pos + ((frame.length : Int) - 4) - s.bytesWritten).toNat : Nat) : Int)
      = max ((fc.pos + ((frame.length : Int) - 4)) - s.bytesWritten) 0 := Int.toNat_eq_max _
  have hnle : ((fc.pos + ((frame.length : Int) - 4) - s.bytesWritten).toNat : Int)
      ≤ (frame.length : Int) - 4 := by
    rw [hnmax]
    exact max_le (by omega) (by omega)
  have hdrop : frame.drop (frame.length -
        (fc.pos + ((frame.length : Int) - 4) - s.bytesWritten).toNat)
      = (frame.drop 4).drop ((frame.drop 4).length -
        (fc.pos + ((frame.length : Int) - 4) - s.bytesWritten).toNat) := by
    rw [List.drop_drop, List.length_drop]
    congr 1
    omega
  rw [onBinaryMessage_eq s fc frame ack
    ((fc.pos + ((frame.length : Int) - 4) - s.bytesWritten).toNat) hfc hlen hpos hack hnmax]
  cases hsh : shrinkBuffer
      { s with frontendCon := some { fc with pos := fc.pos + ((frame.length : Int) - 4) },
               bytesWritten := s.bytesWritten +
                 ((fc.pos + ((frame.length : Int) - 4) - s.bytesWritten).toNat : Int) } ack with
  | none =>
      simp only [hsh]
      refine ⟨_, _, rfl, by rw [← hdrop]; simp, rfl, ?_⟩
      intro fc' hfc'
      simp at hfc'
  | some s3 =>
      obtain ⟨hbw, hbr, hfcon⟩ := shrinkBuffer_fields _ _ _ hsh
      simp only [hsh]
      split
      · refine ⟨s3, _, rfl, by rw [← hdrop]; simp, by rw [hbw], ?_⟩
        intro fc' hfc'
        rw [hfcon] at hfc'
        obtain rfl := Option.some.inj hfc'
        rfl
      · refine ⟨s3, _, rfl, by rw [← hdrop]; simp, by rw [hbw], ?_⟩
        intro fc' hfc'
        rw [hfcon] at hfc'
        obtain rfl := Option.some.inj hfc'
        rfl

/-- C1 witness: the spec's S4 scenario — bytesWritten = 4, the frontend
re-sends "abcd" plus "XY" after a resume; only the two unseen bytes are
written to the backend and bytesWritten becomes 6. -/
theorem C1_witness :
    ∃ s' effs, onBinaryMessage ⟨4, 0, [], some ⟨7, 0⟩⟩
        (writeInt32BE 0 ++ [97, 98, 99, 100, 88, 89]) = some (s', effs) ∧
      effs.take 1 = [Effect.backendWrite [88, 89]] ∧ s'.bytesWritten = 6 := by
  obtain ⟨s', effs, h1, h2, h3, h4⟩ := C1_inbound_overlap ⟨4, 0, [], some ⟨7, 0⟩⟩ ⟨7, 0⟩
    (writeInt32BE 0 ++ [97, 98, 99, 100, 88, 89]) rfl (by decide) (by decide)
  exact ⟨s', effs, h1, h2.trans (by decide), h3.trans (by decide)⟩

/-- C2: for every ack value a, shrinkBuffer fails when a > bytesRead, fails
when a < bytesRead - len(B2FUnacked), and otherwise succeeds with B2FUnacked
becoming exactly the last (bytesRead - a) bytes of the buffer; in particular
a = bytesRead yields the empty buffer, not the whole buffer. -/
theorem C2_shrinkBuffer_spec (s : SessionState) (a : Int) :
    (s.bytesRead < a → shrinkBuffer s a = none) ∧
    (a < s.bytesRead - (s.B2FUnacked.length : Int) → shrinkBuffer s a = none) ∧
    (a ≤ s.bytesRead → s.bytesRead - (s.B2FUnacked.length : Int) ≤ a →
      shrinkBuffer s a = some { s with B2FUnacked := s.B2FUnacked.drop (s.B2FUnacked.length - (s.bytesRead - a).toNat) }) ∧
    shrinkBuffer s s.bytesRead = some { s with B2FUnacked := [] } := by
  refine ⟨fun h => shrinkBuffer_fail s a (Or.inl h),
          fun h => shrinkBuffer_fail s a (Or.inr h),
          fun h1 h2 => shrinkBuffer_ok s a h1 h2, ?_⟩
  have h := shrinkBuffer_ok s s.bytesRead le_rfl (by omega)
  simpa [List.drop_length] using h

/-- C2 witness: bytesRead = 6, buffer [1..6], ack 4 keeps the last two bytes. -/
theorem C2_witness :
    shrinkBuffer ⟨0, 6, [1, 2, 3, 4, 5, 6], none⟩ 4 =
      some ⟨0, 6, [5, 6], none⟩ := by
  have h := (C2_shrinkBuffer_spec ⟨0, 6, [1, 2, 3, 4, 5, 6], none⟩ 4).2.2.1
    (by decide) (by decide)
  exact h.trans (by decide)

/-- C3: a successful adoption (pos ≤ bytesWritten and an ack passing the
shrink rules) installs the new frontend with its pos from the query string
and immediately sends it a single fragment whose payload is exactly the
suffix of the backend-to-frontend stream from offset ack, where the stream
read so far has length bytesRead and B2FUnacked is its unacked suffix. -/
theorem C3_adopt_resume (s : SessionState) (fc : FrontendCon) (ack pos : Int) (stream : Buf)
    (hread : s.bytesRead = (stream.length : Int))
    (hsuffix : s.B2FUnacked = stream.drop (stream.length - s.B2FUnacked.length))
    (hblen : s.B2FUnacked.length ≤ stream.length)
    (hpos : pos ≤ s.bytesWritten)
    (hok1 : ack ≤ s.bytesRead)
    (hok2 : s.bytesRead - (s.B2FUnacked.length : Int) ≤ ack) :
    adopt s fc ack pos =
      .ok { s with B2FUnacked := stream.drop ack.toNat, frontendCon := some { fc with pos := pos } }
          (evictEffects s ++
            [Effect.sendBytes fc.id
              (writeInt32BE (min s.bytesWritten pos) ++ stream.drop ack.toNat)]) := by
  have hbuf : s.B2FUnacked.drop (s.B2FUnacked.length - (s.bytesRead - ack).toNat)
      = stream.drop ack.toNat := by
    nth_rewrite 2 [hsuffix]
    rw [List.drop_drop]
    congr 1
    omega
  simp only [adopt, if_neg (not_lt.mpr hpos), shrinkBuffer_ok s ack hok1 hok2,
    sendFragment, hbuf]

/-- C3 witness: stream [7, 8] fully unacked, reconnect with ack 1 and pos 3;
the new frontend is installed and receives one fragment with payload [8]. -/
theorem C3_witness :
    adopt ⟨5, 2, [7, 8], none⟩ ⟨4, 0⟩ 1 3 =
      .ok ⟨5, 2, [8], some ⟨4, 3⟩⟩ [Effect.sendBytes 4 (writeInt32BE 3 ++ [8])] := by
  have h := C3_adopt_resume ⟨5, 2, [7, 8], none⟩ ⟨4, 0⟩ 1 3 [7, 8]
    (by decide) (by decide) (by decide) (by decide) (by decide) (by decide)
  exact h.trans (by decide)

/-- C4: adopt with pos > bytesWritten does not attach the new connection and
emits nothing to it, but instead of protocol-closing it the code evaluates
frontend.closeProtocol() where frontend is an undefined variable (src line
276), so a ReferenceError is thrown. -/
theorem C4_adopt_pos_ahead (s : SessionState) (fc : FrontendCon) (ack pos : Int)
    (h : s.bytesWritten < pos) :
    adopt s fc ack pos = .refError s (evictEffects s) := by
  simp [adopt, h]

/-- C4 witness: pos = 100 with bytesWritten = 0 throws with no effects at all. -/
theorem C4_witness :
    adopt ⟨0, 0, [], none⟩ ⟨1, 0⟩ 0 100 = .refError ⟨0, 0, [], none⟩ [] := by
  have h := C4_adopt_pos_ahead ⟨0, 0, [], none⟩ ⟨1, 0⟩ 0 100 (by decide)
  exact h.trans (by decide)

/-- C5 counterexample: with frontend connection 0 adopted and an inbound
frame whose ack 5 exceeds bytesRead 0, the handler's only effect is the
backend write: no ack=-1 frame is sent to connection 0 and its WebSocket is
not closed — the code runs emit("close") instead of closeProtocol(), so the
claimed protocol-close does not happen. -/
theorem C5_counterexample :
    onBinaryMessage ⟨0, 0, [], some ⟨0, 0⟩⟩ (writeInt32BE 5) =
        some (⟨0, 0, [], none⟩, [Effect.backendWrite []]) ∧
      Effect.sendBytes 0 (writeInt32BE (-1)) ∉ [Effect.backendWrite ([] : Buf)] ∧
      Effect.wsClose 0 ∉ [Effect.backendWrite ([] : Buf)] :=
  ⟨by decide, by decide, by decide⟩

/-- C5 amended: an inbound binary frame whose ack fails the shrink rules
causes the relay to detach the frontend (the session's reference is cleared
via the locally emitted close event), but no ack=-1 frame is sent and the
relay does not close the WebSocket. -/
theorem C5_shrink_fail_detach (s : SessionState) (fc : FrontendCon) (frame : Buf) (ack : Int)
    (hfc : s.frontendCon = some fc) (hlen : 4 ≤ frame.length)
    (hpos : fc.pos ≤ s.bytesWritten)
    (hack : readInt32BE frame = some ack)
    (hfail : s.bytesRead < ack ∨ ack < s.bytesRead - (s.B2FUnacked.length : Int)) :
    ∃ s' u, onBinaryMessage s frame = some (s', [Effect.backendWrite u]) ∧
      s'.frontendCon = none := by
  rw [onBinaryMessage_eq s fc frame ack
    ((fc.pos + ((frame.length : Int) - 4) - s.bytesWritten).toNat) hfc hlen hpos hack
    (Int.toNat_eq_max _)]
  have hsh := shrinkBuffer_fail
    { s with frontendCon := some { fc with pos := fc.pos + ((frame.length : Int) - 4) },
             bytesWritten := s.bytesWritten +
               ((fc.pos + ((frame.length : Int) - 4) - s.bytesWritten).toNat : Int) } ack hfail
  simp only [hsh]
  exact ⟨_, _, rfl, rfl⟩

/-- C5 witness: bytesRead = 3 with buffer [9]; a frame acking 9 fails the
shrink rules, the frontend reference is cleared, and the only effect is the
(empty) backend write. -/
theorem C5_witness :
    ∃ s' u, onBinaryMessage ⟨0, 3, [9], some ⟨2, 0⟩⟩ (writeInt32BE 9) =
      some (s', [Effect.backendWrite u]) ∧ s'.frontendCon = none :=
  C5_shrink_fail_detach ⟨0, 3, [9], some ⟨2, 0⟩⟩ ⟨2, 0⟩ (writeInt32BE 9) 9
    rfl (by decide) (by decide) (by decide) (Or.inl (by decide))

/-- C6: after the backend close handler nulls the registry slot, a /connect
for that sid is not treated as an unknown session: typeof null is not
"undefined", so the guard passes and control reaches ses.adopt on null — a
TypeError, with no protocol-close of the new connection. -/
theorem C6_removed_sid_reaches_adopt (reg : Nat → RegEntry) (s : SessionState)
    (sid : Nat) (req : WsRequest)
    (hpath : req.pathname = "/connect")
    (hsid : req.sid = some sid) :
    wsRequestHandler (backendCloseHandler reg sid s).1 req =
      { accepted := true, protoClosed := false, adoptCalled := true, typeError := true } := by
  simp [wsRequestHandler, backendCloseHandler, hsid, hpath]

/-- C6 witness: a concrete reconnect to a session whose backend closed. -/
theorem C6_witness :
    wsRequestHandler (backendCloseHandler (fun _ => RegEntry.absent) 0 ⟨0, 0, [], none⟩).1
        ⟨"/connect", some 0, 0, 0⟩ =
      { accepted := true, protoClosed := false, adoptCalled := true, typeError := true } :=
  C6_removed_sid_reaches_adopt (fun _ => RegEntry.absent) ⟨0, 0, [], none⟩ 0
    ⟨"/connect", some 0, 0, 0⟩ rfl rfl

/-- C7: the upgrade is always accepted; but for a path other than /connect
with a known live sid the handler both protocol-closes the connection and
still calls ses.adopt — the wrong-path branch (src lines 380-383) is missing
a return statement. -/
theorem C7_wrong_path_still_adopts (reg : Nat → RegEntry) (req : WsRequest)
    (sid : Nat) (ses : SessionState)
    (hpath : req.pathname ≠ "/connect")
    (hsid : req.sid = some sid)
    (hlive : reg sid = RegEntry.live ses) :
    wsRequestHandler reg req =
      { accepted := true, protoClosed := true, adoptCalled := true, typeError := false } := by
  simp [wsRequestHandler, hsid, hlive, bne_iff_ne, hpath]

/-- C7 witness: upgrade on path /x with a live sid 0. -/
theorem C7_witness :
    wsRequestHandler (fun _ => RegEntry.live ⟨0, 0, [], none⟩) ⟨"/x", some 0, 0, 0⟩ =
      { accepted := true, protoClosed := true, adoptCalled := true, typeError := false } :=
  C7_wrong_path_still_adopts (fun _ => RegEntry.live ⟨0, 0, [], none⟩)
    ⟨"/x", some 0, 0, 0⟩ 0 ⟨0, 0, [], none⟩ (by decide) rfl rfl

/-- C8: every fragment sent to an attached frontend carries a 4-byte
big-endian header that decodes to min(bytesWritten, frontend pos); in
particular the emitted ack never exceeds the frontend's pos. -/
theorem C8_sendFragment_ack_min (s : SessionState) (fc : FrontendCon) (fragment : Buf)
    (hfc : s.frontendCon = some fc)
    (h1 : -2147483648 ≤ min s.bytesWritten fc.pos)
    (h2 : min s.bytesWritten fc.pos < 2147483648) :
    sendFragment s fragment =
      [Effect.sendBytes fc.id (writeInt32BE (min s.bytesWritten fc.pos) ++ fragment)] ∧
    readInt32BE (writeInt32BE (min s.bytesWritten fc.pos) ++ fragment) =
      some (min s.bytesWritten fc.pos) ∧
    min s.bytesWritten fc.pos ≤ fc.pos := by
  refine ⟨?_, readInt32BE_writeInt32BE_append _ _ h1 h2, min_le_right _ _⟩
  simp [sendFragment, hfc]

/-- C8 witness: bytesWritten = 10 and pos = 7 emit ack 7 = min(10, 7). -/
theorem C8_witness :
    sendFragment ⟨10, 0, [], some ⟨3, 7⟩⟩ [42] =
        [Effect.sendBytes 3 (writeInt32BE (min (10 : Int) 7) ++ [42])] ∧
      readInt32BE (writeInt32BE (min (10 : Int) 7) ++ [42]) = some (min (10 : Int) 7) ∧
      min (10 : Int) 7 ≤ 7 :=
  C8_sendFragment_ack_min ⟨10, 0, [], some ⟨3, 7⟩⟩ ⟨3, 7⟩ [42] rfl
    (by decide) (by decide)

/-- C9: after an inbound binary frame whose ack passes the shrink rules, an
empty-payload fragment is sent if and only if bytesWritten - pos > 1048576,
with the expression exactly as the code computes it after the frame is
processed (when it is not above the threshold, including any non-positive
value, nothing is sent). -/
theorem C9_friendly_release (s : SessionState) (fc : FrontendCon) (frame : Buf) (ack : Int)
    (hfc : s.frontendCon = some fc) (hlen : 4 ≤ frame.length)
    (hpos : fc.pos ≤ s.bytesWritten)
    (hack : readInt32BE frame = some ack)
    (hok1 : ack ≤ s.bytesRead)
    (hok2 : s.bytesRead - (s.B2FUnacked.length : Int) ≤ ack) :
    ∃ s' u, onBinaryMessage s frame =
      some (s', Effect.backendWrite u ::
        (if 1048576 < s'.bytesWritten - (fc.pos + ((frame.length : Int) - 4)) then
          [Effect.sendBytes fc.id
            (writeInt32BE (min s'.bytesWritten (fc.pos + ((frame.length : Int) - 4))) ++ [])]
         else [])) := by
  rw [onBinaryMessage_eq s fc frame ack
    ((fc.pos + ((frame.length : Int) - 4) - s.bytesWritten).toNat) hfc hlen hpos hack
    (Int.toNat_eq_max _)]
  have hsh := shrinkBuffer_ok
    { s with frontendCon := some { fc with pos := fc.pos + ((frame.length : Int) - 4) },
             bytesWritten := s.bytesWritten +
               ((fc.pos + ((frame.length : Int) - 4) - s.bytesWritten).toNat : Int) } ack hok1 hok2
  simp only [hsh]
  refine ⟨{ bytesWritten := s.bytesWritten +
              ((fc.pos + ((frame.length : Int) - 4) - s.bytesWritten).toNat : Int),
            bytesRead := s.bytesRead,
            B2FUnacked := s.B2FUnacked.drop (s.B2FUnacked.length - (s.bytesRead - ack).toNat),
            frontendCon := some { id := fc.id, pos := fc.pos + ((frame.length : Int) - 4) } },
          frame.drop (frame.length -
            (fc.pos + ((frame.length : Int) - 4) - s.bytesWritten).toNat), ?_⟩
  dsimp only
  have hfbr : friendlyBufferRelease = (1048576 : Int) := by norm_num [friendlyBufferRelease]
  rw [hfbr]
  split <;> rfl

/-- C9 witness: bytesWritten = 2000000 and pos = 0 after a pure-ack frame;
the gap exceeds 1 MiB, so the friendly empty fragment is emitted. -/
theorem C9_witness :
    ∃ s' u, onBinaryMessage ⟨2000000, 0, [], some ⟨3, 0⟩⟩ (writeInt32BE 0) =
      some (s', Effect.backendWrite u ::
        (if 1048576 < s'.bytesWritten -
            ((⟨3, 0⟩ : FrontendCon).pos + (((writeInt32BE 0 : Buf).length : Int) - 4)) then
          [Effect.sendBytes (⟨3, 0⟩ : FrontendCon).id
            (writeInt32BE (min s'.bytesWritten
              ((⟨3, 0⟩ : FrontendCon).pos + (((writeInt32BE 0 : Buf).length : Int) - 4))) ++ [])]
         else [])) :=
  C9_friendly_release ⟨2000000, 0, [], some ⟨3, 0⟩⟩ ⟨3, 0⟩ (writeInt32BE 0) 0
    rfl (by decide) (by decide) (by decide) (by decide) (by decide)

/-- C10: the close listener clears the adopted-frontend reference exactly
when the closing connection is the currently adopted one; a late close event
from a replaced connection leaves the reference unchanged. -/
theorem C10_closeHandler_identity (s : SessionState) (cur : FrontendCon) (closingId : Nat)
    (hfc : s.frontendCon = some cur) :
    closeHandler s closingId =
      if cur.id = closingId then { s with frontendCon := none } else s := by
  simp only [closeHandler, hfc]

/-- C10 witness: a close event for old connection 9 while connection 5 is
adopted leaves the session unchanged. -/
theorem C10_witness :
    closeHandler ⟨0, 0, [], some ⟨5, 0⟩⟩ 9 = ⟨0, 0, [], some ⟨5, 0⟩⟩ := by
  have h := C10_closeHandler_identity ⟨0, 0, [], some ⟨5, 0⟩⟩ ⟨5, 0⟩ 9 rfl
  simpa using h

end NasshRelay
